import Mathlib

/-!
# Folder cache and change coalescing

A shallow embedding of src/core/folder.cpp (namespace Fm2): the static
path-keyed registry of weak folder references (cache_, Folder::fromPath,
Folder::~Folder) and the per-folder pending-change machinery
(onFileChangeEvents, onDirChanged, processPendingChanges, queue_update,
onDirListFinished, reload, blockUpdates, unblockUpdates).

Only the code that the preprocessor keeps is embedded: everything between
#if 0 and #endif is not part of the program.
-/

namespace Fm2

/-! ## Paths -/

/-- Modelled from the spec: the class FilePath is declared outside the given
sources. A path is the list of its components; two paths are equal when their
components are. -/
structure FilePath where
  components : List String
deriving DecidableEq, Repr

/-- Modelled from the spec: FilePath::baseName is declared outside the given
sources. The base name of a path is its last component (empty for the root). -/
def FilePath.baseName (p : FilePath) : String :=
  p.components.getLast?.getD ""

/-! ## The registry: cache_, fromPath, ~Folder -/

/-- A Folder object as the registry sees it: the path it was constructed with,
the use count of its shared_ptr control block (a weak_ptr to it is expired
exactly when the count is zero) and whether its destructor body has run. -/
structure FolderCell where
  dir_path : FilePath
  use_count : Nat
  destructed : Bool
deriving DecidableEq, Repr

/-- The static state of class Folder. The unordered_map cache_ is a finite
partial function from paths to weak pointers; a weak pointer is the index of
a cell in heap, the list of every Folder constructed so far. -/
structure Registry where
  cache_ : FilePath → Option Nat
  heap : List FolderCell

/-- The registry at program start: no entry, no folder. -/
def Registry.empty : Registry :=
  { cache_ := fun _ => none, heap := [] }

/-- Result of std::weak_ptr::lock being non-null: the cell exists and its
use count is positive. -/
def Registry.alive (r : Registry) (f : Nat) : Bool :=
  match r.heap[f]? with
  | some c => decide (0 < c.use_count)
  | none => false

/-- The call cache_.erase(it) for the iterator found at key k. -/
def mapErase (m : FilePath → Option Nat) (k : FilePath) : FilePath → Option Nat :=
  fun q => if q = k then none else m q

/-- The call cache_.insert(std::make_pair(k, v)): an existing key keeps its
value. -/
def mapInsert (m : FilePath → Option Nat) (k : FilePath) (v : Nat) :
    FilePath → Option Nat :=
  fun q => if q = k then (match m k with
    | some old => some old
    | none => some v) else m q

/-- Apply g to the cell at index f, leaving the heap alone when there is
no such cell. -/
def modifyCell (g : FolderCell → FolderCell) : Nat → List FolderCell → List FolderCell
  | _, [] => []
  | 0, c :: cs => g c :: cs
  | n + 1, c :: cs => c :: modifyCell g n cs

/-- The tail of fromPath: std::make_shared<Folder>(path) followed by
cache_.insert. The new object is the next cell of the heap and is owned by
the one shared_ptr that is returned. -/
def makeShared (path : FilePath) (r : Registry) : Nat × Registry :=
  (r.heap.length,
   { cache_ := mapInsert r.cache_ path r.heap.length,
     heap := r.heap ++ [{ dir_path := path, use_count := 1, destructed := false }] })

/-- The static function Folder::fromPath (folder.cpp lines 70-85). The result
is the folder the returned shared_ptr points to, and the registry afterwards. -/
def Folder.fromPath (path : FilePath) (r : Registry) : Nat × Registry :=
  match r.cache_ path with
  | some f =>
    if r.alive f then
      (f, { r with heap := modifyCell (fun c => { c with use_count := c.use_count + 1 }) f r.heap })
    else
      makeShared path { r with cache_ := mapErase r.cache_ path }
  | none => makeShared path r

/-- The body of Folder::~Folder (folder.cpp lines 58-67) for a folder whose
path is dir_path, as a function of cache_. -/
def Folder.destructorBody (dir_path : FilePath) (cache : FilePath → Option Nat) :
    FilePath → Option Nat :=
  match cache dir_path with
  | some _ => mapErase cache dir_path
  | none => cache

/-- Running the destructor of cell f. -/
def Folder.destructor (f : Nat) (r : Registry) : Registry :=
  match r.heap[f]? with
  | some c =>
    { cache_ := Folder.destructorBody c.dir_path r.cache_,
      heap := modifyCell (fun c => { c with destructed := true }) f r.heap }
  | none => r

/-- The steps the registry can take: a call of fromPath, one shared_ptr to a
folder being dropped, and the destructor body of a folder running. -/
inductive RegStep where
  | fromPath (p : FilePath)
  | release (f : Nat)
  | destroy (f : Nat)
deriving DecidableEq, Repr

/-- One step. Dropping a shared_ptr needs a positive use count; the destructor
runs only for a cell whose use count is zero and only once. -/
def regStep (r : Registry) : RegStep → Registry
  | .fromPath p => (Folder.fromPath p r).2
  | .release f =>
    if r.alive f then
      { r with heap := modifyCell (fun c => { c with use_count := c.use_count - 1 }) f r.heap }
    else r
  | .destroy f =>
    match r.heap[f]? with
    | some c => if c.use_count = 0 ∧ c.destructed = false then Folder.destructor f r else r
    | none => r

/-- Run a schedule of steps from the empty registry. -/
def regRun (steps : List RegStep) : Registry :=
  steps.foldl regStep Registry.empty

/-- The folders that are alive and were constructed for path p. -/
def liveAt (r : Registry) (p : FilePath) : List Nat :=
  (List.range r.heap.length).filter
    (fun f => r.alive f && decide ((r.heap[f]?).map FolderCell.dir_path = some p))

/-! ## The folder object -/

/-- Modelled from the spec: the class FileInfo is declared outside the given
sources. A file-metadata record carries the name of the file it describes and
its remaining metadata, abstracted to a number. -/
structure FileInfo where
  name : String
  info : Nat
deriving DecidableEq, Repr

/-- The values of GFileMonitorEvent that the switch statements of folder.cpp
distinguish. -/
inductive GFileMonitorEvent where
  | CHANGED
  | CHANGES_DONE_HINT
  | DELETED
  | CREATED
  | ATTRIBUTE_CHANGED
  | PRE_UNMOUNT
  | UNMOUNTED
  | MOVED
deriving DecidableEq, Repr

/-- The Qt signals of Folder that folder.cpp emits with Q_EMIT. -/
inductive Signal where
  | startLoading
  | finishLoading
  | filesAdded (batch : List FileInfo)
  | filesChanged (batch : List FileInfo)
  | filesRemoved (batch : List FileInfo)
  | contentChanged
  | changed
  | fileSystemChanged
  | removed
  | unmount
deriving DecidableEq, Repr

/-- What a member function does that is visible outside the folder object, in
program order: taking and releasing the static mutex (the lock_guard), emitting
a signal, QTimer::singleShot(0, this, &Folder::processPendingChanges),
cancelling a listing job, and handing a new listing job to the thread pool. -/
inductive Event where
  | lock
  | unlock
  | emit (s : Signal)
  | singleShot
  | cancel (job : Nat)
  | start (job : Nat)
deriving DecidableEq, Repr

/-- Modelled from the spec: the class DirListJob is declared outside the given
sources. A listing job has an identity (its address), a cancelled flag, the
file records it found and, optionally, the record of the directory itself. -/
structure DirListJob where
  id : Nat
  isCancelled : Bool
  files : List FileInfo
  dir_fi : Option FileInfo
deriving DecidableEq, Repr

/-- The data members of a Folder that folder.cpp reads or writes. The map
files is kept as an association list from file name to record; the three
pending containers are sequences of paths; dirlist_job is the address of the
tracked listing job or null; mon tells whether a file monitor is attached. -/
structure Folder where
  dir_path : FilePath
  dir_fi : Option FileInfo
  files : List (String × FileInfo)
  files_to_add : List FilePath
  files_to_update : List FilePath
  files_to_del : List FilePath
  dirlist_job : Option Nat
  mon : Bool
  has_idle_handler : Bool
  pending_change_notify : Bool
  filesystem_info_pending : Bool
  wants_incremental : Bool
  idle_reload_handler : Nat
  stop_emission : Bool
  fs_total_size : Nat
  fs_free_size : Nat
  has_fs_info : Bool
  fs_info_not_avail : Bool
  defer_content_test : Bool
deriving DecidableEq, Repr

/-- The constructor Folder::Folder(const FilePath& path) (lines 36-56). -/
def Folder.create (path : FilePath) : Folder :=
  { dir_path := path
    dir_fi := none
    files := []
    files_to_add := []
    files_to_update := []
    files_to_del := []
    dirlist_job := none
    mon := false
    has_idle_handler := false
    pending_change_notify := false
    filesystem_info_pending := false
    wants_incremental := false
    idle_reload_handler := 0
    stop_emission := false
    fs_total_size := 0
    fs_free_size := 0
    has_fs_info := false
    fs_info_not_avail := false
    defer_content_test := false }

/-- The outcome of one call of a member function: the folder afterwards and
what the call did, in program order. -/
structure Step where
  self : Folder
  trace : List Event
deriving DecidableEq, Repr

/-- Append one event to the trace of a call in progress. -/
def Step.log (s : Step) (e : Event) : Step :=
  { s with trace := s.trace ++ [e] }

/-- Assign to data members in a call in progress. -/
def Step.assign (s : Step) (g : Folder → Folder) : Step :=
  { s with self := g s.self }

/-- Call another member function from a call in progress. -/
def Step.andThen (s : Step) (op : Folder → Step) : Step :=
  { self := (op s.self).self, trace := s.trace ++ (op s.self).trace }

/-- The signals among the events of a trace, in order. -/
def signalsOf (t : List Event) : List Signal :=
  t.filterMap (fun e => match e with
    | .emit s => some s
    | _ => none)

/-- The call files.find(name) on the map of children. -/
def filesFind (name : String) : List (String × FileInfo) → Option FileInfo
  | [] => none
  | (k, v) :: rest => if k = name then some v else filesFind name rest

/-- The call files.erase(it) for the iterator found at key name. -/
def filesErase (name : String) : List (String × FileInfo) → List (String × FileInfo)
  | [] => []
  | (k, v) :: rest => if k = name then rest else (k, v) :: filesErase name rest

/-- The member function Folder::isValid (lines 103-105). -/
def isValid (f : Folder) : Bool :=
  f.dir_fi.isSome

/-- The member function Folder::isLoaded (lines 107-109). Its body is empty:
control reaches the end of a function returning bool without a return
statement, so the call produces no defined value. -/
def isLoaded (_f : Folder) : Option Bool :=
  none

/-- The member function Folder::getFileByName (lines 111-117). -/
def getFileByName (f : Folder) (name : String) : Option FileInfo :=
  filesFind name f.files

/-- The member function Folder::isEmpty (lines 119-121). -/
def isEmpty (f : Folder) : Bool :=
  f.files.isEmpty

/-- The member function Folder::getFiles (lines 123-130). -/
def getFiles (f : Folder) : List FileInfo :=
  f.files.map Prod.snd

/-- The member function Folder::unblockUpdates (lines 141-143): the body is
empty. -/
def unblockUpdates (f : Folder) : Step :=
  { self := f, trace := [] }

/-- The member function Folder::blockUpdates (lines 145-147): the body is
empty. -/
def blockUpdates (f : Folder) : Step :=
  { self := f, trace := [] }

/-- The member function Folder::queryFilesystemInfo (lines 91-93): the body
is empty. -/
def queryFilesystemInfo (f : Folder) : Step :=
  { self := f, trace := [] }

/-- The loop of lines 290-297: for each path queued for deletion, look its
base name up in files; when found, push the record to deleted_files and
erase the entry. -/
def deleteLoop : List FilePath → List (String × FileInfo) → List FileInfo →
    List (String × FileInfo) × List FileInfo
  | [], files, deleted_files => (files, deleted_files)
  | path :: rest, files, deleted_files =>
    match filesFind path.baseName files with
    | some fi => deleteLoop rest (filesErase path.baseName files) (deleted_files ++ [fi])
    | none => deleteLoop rest files deleted_files

/-- The member function Folder::processPendingChanges (lines 243-313). -/
def processPendingChanges (f : Folder) : Step :=
  let s0 : Step := { self := { f with has_idle_handler := false }, trace := [Event.lock] }
  if s0.self.stop_emission then
    s0.log Event.unlock
  else
    let s1 : Step :=
      if !s0.self.files_to_del.isEmpty then
        let r := deleteLoop s0.self.files_to_del s0.self.files []
        ((s0.assign (fun g => { g with files := r.1 })).log
          (Event.emit (Signal.filesRemoved r.2))).log (Event.emit Signal.contentChanged)
      else s0
    let s2 : Step :=
      if s1.self.pending_change_notify then
        (((s1.log (Event.emit Signal.changed)).andThen queryFilesystemInfo).assign
          (fun g => { g with pending_change_notify := false }))
      else s1
    let s3 : Step :=
      if s2.self.filesystem_info_pending then
        ((s2.log (Event.emit Signal.fileSystemChanged)).assign
          (fun g => { g with filesystem_info_pending := false }))
      else s2
    s3.log Event.unlock

/-- The member function Folder::queue_update (lines 316-321). -/
def queue_update (f : Folder) : Step :=
  if !f.has_idle_handler then
    { self := { f with has_idle_handler := true }, trace := [Event.singleShot] }
  else
    { self := f, trace := [] }

/-- The member function Folder::onDirChanged (lines 413-449). -/
def onDirChanged (evt : GFileMonitorEvent) (f : Folder) : Step :=
  match evt with
  | .PRE_UNMOUNT => { self := f, trace := [] }
  | .UNMOUNTED => { self := f, trace := [Event.emit Signal.unmount] }
  | .DELETED => { self := f, trace := [Event.emit Signal.removed] }
  | .CREATED => { self := f, trace := [] }
  | .ATTRIBUTE_CHANGED | .CHANGED =>
    let s0 : Step := { self := { f with pending_change_notify := true }, trace := [Event.lock] }
    let s1 : Step :=
      if s0.self.dir_path ∈ s0.self.files_to_update then
        (s0.assign (fun g => { g with files_to_update := g.files_to_update ++ [g.dir_path] })).andThen
          queue_update
      else s0
    s1.log Event.unlock
  | .MOVED => { self := f, trace := [] }
  | .CHANGES_DONE_HINT => { self := f, trace := [] }

/-- The member function Folder::onFileChangeEvents (lines 451-497); gf is
the path of the file the monitor reports. -/
def onFileChangeEvents (gf : FilePath) (evt : GFileMonitorEvent) (f : Folder) : Step :=
  if f.dir_path = gf then
    onDirChanged evt f
  else
    let s0 : Step := { self := f, trace := [Event.lock] }
    let path := gf
    match evt with
    | .CREATED =>
      let s1 : Step :=
        if path ∈ s0.self.files_to_add then
          if path ∈ s0.self.files_to_update then
            s0.assign (fun g => { g with files_to_add := g.files_to_add ++ [path] })
          else s0
        else s0
      (s1.andThen queue_update).log Event.unlock
    | .ATTRIBUTE_CHANGED | .CHANGED =>
      let s1 : Step :=
        if path ∈ s0.self.files_to_add then
          if path ∈ s0.self.files_to_update then
            s0.assign (fun g => { g with files_to_update := g.files_to_update ++ [path] })
          else s0
        else s0
      (s1.andThen queue_update).log Event.unlock
    | .DELETED =>
      let s1 : Step :=
        if path ∈ s0.self.files_to_del then
          s0.assign (fun g => { g with files_to_del := g.files_to_del ++ [path] })
        else s0
      (s1.andThen queue_update).log Event.unlock
    | _ => s0.log Event.unlock

/-- The slot Folder::onDirListFinished (lines 499-560); job is the sender
of the signal. -/
def onDirListFinished (job : DirListJob) (f : Folder) : Step :=
  if job.isCancelled || decide (f.dirlist_job ≠ some job.id) then
    { self := f, trace := [] }
  else
    { self := f, trace := [Event.emit Signal.finishLoading] }

/-- The member function Folder::reload (lines 633-736). newJob is the
address of the DirListJob that new returns and monOk tells whether
g_file_monitor_directory returned a monitor. -/
def reload (newJob : Nat) (monOk : Bool) (f : Folder) : Step :=
  let s0 : Step := { self := f, trace := [Event.emit Signal.startLoading] }
  let s1 : Step := s0.assign (fun g => { g with dir_fi := none })
  let s2 : Step :=
    match s1.self.dirlist_job with
    | some j => (s1.log (Event.cancel j)).assign (fun g => { g with dirlist_job := none })
    | none => s1
  let s3 : Step := s2.assign (fun g => { g with mon := monOk })
  let s4 : Step := s3.log (Event.emit Signal.contentChanged)
  let s5 : Step := (s4.assign (fun g => { g with dirlist_job := some newJob })).log (Event.start newJob)
  s5.andThen queryFilesystemInfo

/-- Deliver a sequence of file-monitor events for the same file, one call of
onFileChangeEvents after the other. -/
def deliver (gf : FilePath) : List GFileMonitorEvent → Folder → Step
  | [], f => { self := f, trace := [] }
  | evt :: rest, f =>
    let s := onFileChangeEvents gf evt f
    { self := (deliver gf rest s.self).self, trace := s.trace ++ (deliver gf rest s.self).trace }

/-! ## Named inputs and specification-side notions -/

/-- The place of a signal in the order that the specification gives for one
flush: the removed batch, then the added and changed batches, then
content-changed, then folder-changed and filesystem-changed. Signals that the
ordering sentence does not mention come last. -/
def flushRank : Signal → Nat
  | .filesRemoved _ => 0
  | .filesAdded _ => 1
  | .filesChanged _ => 1
  | .contentChanged => 2
  | .changed => 3
  | .fileSystemChanged => 3
  | _ => 4

/-- The path home/u. -/
def homeUPath : FilePath :=
  { components := ["home", "u"] }

/-- The path of the file a.txt in home/u. -/
def aTxt : FilePath :=
  { components := ["home", "u", "a.txt"] }

/-- The folder home/u right after construction. -/
def homeU : Folder :=
  Folder.create homeUPath

/-- The folder home/u with emission stopped and a.txt queued for deletion. -/
def homeUStopped : Folder :=
  { homeU with
    stop_emission := true
    files_to_del := [aTxt] }

/-- A listing job at address 7 that is not cancelled and found a.txt and
b.txt. -/
def listingAB : DirListJob :=
  { id := 7
    isCancelled := false
    files := [{ name := "a.txt", info := 1 }, { name := "b.txt", info := 2 }]
    dir_fi := none }

/-- A registry with one live folder for the path home/u. -/
def regOne : Registry :=
  regRun [RegStep.fromPath homeUPath]

/-- A schedule in which a folder for home/u is created and its only reference
dropped, and fromPath is called again for the same path before the destructor
body of the first folder has run. -/
def staleSchedule : List RegStep :=
  [RegStep.fromPath homeUPath, RegStep.release 0, RegStep.fromPath homeUPath]

/-- The folder home/u with a.txt queued for deletion and no child. -/
def homeUDel : Folder :=
  { homeU with files_to_del := [aTxt] }

/-- The folder home/u with the child a.txt, queued for deletion. -/
def homeUDelChild : Folder :=
  { homeU with
    files := [("a.txt", { name := "a.txt", info := 1 })]
    files_to_del := [aTxt] }

/-! ## Traces, schedules and reachable states -/

/-- The signals of a trace that are emitted while the mutex is held; the
argument held counts the lock_guards alive at the start of the trace. -/
def lockedSignals : Nat → List Event → List Signal
  | _, [] => []
  | held, Event.lock :: t => lockedSignals (held + 1) t
  | held, Event.unlock :: t => lockedSignals (held - 1) t
  | held, Event.emit s :: t =>
    if 0 < held then s :: lockedSignals held t else lockedSignals held t
  | held, _ :: t => lockedSignals held t

/-- The number of calls of QTimer::singleShot in a trace. -/
def singleShots (t : List Event) : Nat :=
  t.count Event.singleShot

/-- The names of a list in the order of their first occurrence, each once. -/
def keepFirst : List String → List String
  | [] => []
  | x :: xs => x :: (keepFirst xs).filter (fun y => decide (y ≠ x))

/-- The calls that reach a folder object from outside: the file monitor
(a child or self-path event through onFileChangeEvents, or onDirChanged
directly), the flush, reload, the slot for a finished listing job, and the
two calls that bracket a suppression window. -/
inductive Op where
  | fileChange (gf : FilePath) (evt : GFileMonitorEvent)
  | dirChanged (evt : GFileMonitorEvent)
  | flush
  | reload (newJob : Nat) (monOk : Bool)
  | dirListFinished (job : DirListJob)
  | blockUpdates
  | unblockUpdates
deriving DecidableEq, Repr

/-- The member function that a call stands for; a flush is a call of
processPendingChanges. -/
def Op.call : Op → Folder → Step
  | .fileChange gf evt => onFileChangeEvents gf evt
  | .dirChanged evt => onDirChanged evt
  | .flush => processPendingChanges
  | .reload newJob monOk => Fm2.reload newJob monOk
  | .dirListFinished job => onDirListFinished job
  | .blockUpdates => Fm2.blockUpdates
  | .unblockUpdates => Fm2.unblockUpdates

/-- The folder after a sequence of calls, each applied to the folder that the
previous one left. -/
def folderRun (ops : List Op) (f : Folder) : Folder :=
  ops.foldl (fun g op => (op.call g).self) f

/-- A folder together with the number of processPendingChanges callbacks that
QTimer::singleShot has queued on the event loop and that have not run yet. -/
structure Sched where
  folder : Folder
  pending : Nat
deriving DecidableEq, Repr

/-- One step of a folder on its event loop. A flush is the event loop running
one queued callback, which it can do only when one is queued; every other call
adds the callbacks it schedules to the queue. -/
def schedStep (s : Sched) : Op → Sched
  | .flush =>
    if 0 < s.pending then
      { folder := (processPendingChanges s.folder).self,
        pending := s.pending - 1 + singleShots (processPendingChanges s.folder).trace }
    else s
  | op =>
    { folder := (op.call s.folder).self,
      pending := s.pending + singleShots (op.call s.folder).trace }

/-- Run a sequence of steps from a freshly constructed folder with an empty
callback queue. -/
def schedRun (path : FilePath) (ops : List Op) : Sched :=
  ops.foldl schedStep { folder := Folder.create path, pending := 0 }

/-- Call queue_update n times in a row, with no flush in between. -/
def queueUpdates : Nat → Sched → Sched
  | 0, s => s
  | n + 1, s =>
    queueUpdates n
      { folder := (queue_update s.folder).self,
        pending := s.pending + singleShots (queue_update s.folder).trace }

/-- The folder home/u with children a.txt and b.txt, where a.txt is queued for
deletion twice and c.txt, which is no child, once. -/
def homeUTwoChildren : Folder :=
  { homeU with
    files := [("a.txt", { name := "a.txt", info := 1 }),
      ("b.txt", { name := "b.txt", info := 2 })]
    files_to_del := [aTxt, { components := ["home", "u", "c.txt"] }, aTxt] }

/-- The callback queue holds one callback when has_idle_handler is set and
none otherwise. -/
def Sched.balanced (s : Sched) : Prop :=
  s.pending = if s.folder.has_idle_handler then 1 else 0

/-- No path is queued in more than one of the three pending containers. -/
def pendingDisjoint (f : Folder) : Prop :=
  ∀ x, ¬ (x ∈ f.files_to_add ∧ x ∈ f.files_to_update) ∧
    ¬ (x ∈ f.files_to_add ∧ x ∈ f.files_to_del) ∧
    ¬ (x ∈ f.files_to_update ∧ x ∈ f.files_to_del)

/-! ## Lemmas on the registry -/

theorem length_modifyCell (g : FolderCell → FolderCell) (n : Nat) (h : List FolderCell) :
    (modifyCell g n h).length = h.length := by
  induction h generalizing n with
  | nil => cases n <;> rfl
  | cons c cs ih =>
    cases n with
    | zero => rfl
    | succ m => simp [modifyCell, ih]

/-- What make_shared followed by insert achieves when the key is absent, and
what the next fromPath of the same path then does. -/
theorem makeShared_spec (p : FilePath) (r : Registry) (h : r.cache_ p = none) :
    r.heap[(makeShared p r).1]? = none ∧
    (makeShared p r).2.heap[(makeShared p r).1]? =
      some { dir_path := p, use_count := 1, destructed := false } ∧
    (makeShared p r).2.cache_ p = some (makeShared p r).1 ∧
    (∀ q, q ≠ p → (makeShared p r).2.cache_ q = r.cache_ q) ∧
    (Folder.fromPath p (makeShared p r).2).1 = (makeShared p r).1 ∧
    (Folder.fromPath p (makeShared p r).2).2.cache_ = (makeShared p r).2.cache_ := by
  have hc : (makeShared p r).2.cache_ p = some r.heap.length := by
    simp [makeShared, mapInsert, h]
  have ha : (makeShared p r).2.alive r.heap.length = true := by
    simp [makeShared, Registry.alive]
  refine ⟨by simp [makeShared], by simp [makeShared], hc, ?_, ?_, ?_⟩
  · intro q hq
    simp [makeShared, mapInsert, hq]
  · simp [Folder.fromPath, hc, ha]
    rfl
  · simp [Folder.fromPath, hc, ha]

/-- The destructor body leaves no entry under the path of the dying folder,
whatever folder the entry referred to. -/
theorem destructorBody_erases (p : FilePath) (cache : FilePath → Option Nat) :
    Folder.destructorBody p cache p = none := by
  unfold Folder.destructorBody
  cases h : cache p <;> simp [mapErase, h]

/-! ## Lemmas on the folder object -/

/-- The signals of one flush, read off the four conditions of the function. -/
theorem signalsOf_processPendingChanges (f : Folder) :
    signalsOf (processPendingChanges f).trace =
      (if f.stop_emission then [] else
        (if f.files_to_del.isEmpty then [] else
          [Signal.filesRemoved (deleteLoop f.files_to_del f.files []).2,
            Signal.contentChanged]) ++
        (if f.pending_change_notify then [Signal.changed] else []) ++
        (if f.filesystem_info_pending then [Signal.fileSystemChanged] else [])) := by
  unfold processPendingChanges
  cases h1 : f.stop_emission <;> cases h2 : f.files_to_del.isEmpty <;>
    cases h3 : f.pending_change_notify <;> cases h4 : f.filesystem_info_pending <;>
    simp [signalsOf, Step.log, Step.assign, Step.andThen, queryFilesystemInfo, h1, h2, h3, h4]

/-- No flush emits filesAdded or filesChanged. -/
theorem processPendingChanges_never_adds (f : Folder) :
    ∀ sig ∈ signalsOf (processPendingChanges f).trace,
      ∀ batch, sig ≠ Signal.filesAdded batch ∧ sig ≠ Signal.filesChanged batch := by
  intro sig hsig batch
  rw [signalsOf_processPendingChanges] at hsig
  cases h1 : f.stop_emission <;> cases h2 : f.files_to_del.isEmpty <;>
    cases h3 : f.pending_change_notify <;> cases h4 : f.filesystem_info_pending <;>
    simp [h1, h2, h3, h4] at hsig <;> (try rcases hsig with h | h | h | h) <;> simp_all

/-- A flush that finds the delete queue empty leaves the children alone. -/
theorem processPendingChanges_files (f : Folder) (hd : f.files_to_del = []) :
    (processPendingChanges f).self.files = f.files := by
  unfold processPendingChanges
  cases h1 : f.stop_emission <;> cases h3 : f.pending_change_notify <;>
    cases h4 : f.filesystem_info_pending <;>
    simp [Step.log, Step.assign, Step.andThen, queryFilesystemInfo, h1, hd, h3, h4]

/-- A child-path event that finds both the add queue and the delete queue
empty changes no data member other than has_idle_handler. -/
theorem onFileChangeEvents_child_empty (gf : FilePath) (evt : GFileMonitorEvent) (f : Folder)
    (hne : f.dir_path ≠ gf) (ha : f.files_to_add = []) (hd : f.files_to_del = []) :
    (onFileChangeEvents gf evt f).self = f ∨
    (onFileChangeEvents gf evt f).self = { f with has_idle_handler := true } := by
  cases hi : f.has_idle_handler <;> cases evt <;>
    simp [onFileChangeEvents, queue_update, Step.log, Step.assign, Step.andThen, hne, ha, hd, hi]

/-- Any number of child-path events delivered while the add queue and the
delete queue are empty changes no data member other than has_idle_handler. -/
theorem deliver_child_empty (gf : FilePath) (evts : List GFileMonitorEvent) (f : Folder)
    (hne : f.dir_path ≠ gf) (ha : f.files_to_add = []) (hd : f.files_to_del = []) :
    ∃ b, (deliver gf evts f).self = { f with has_idle_handler := b } := by
  induction evts generalizing f with
  | nil => exact ⟨f.has_idle_handler, by cases f; rfl⟩
  | cons evt rest ih =>
    simp only [deliver]
    rcases onFileChangeEvents_child_empty gf evt f hne ha hd with h | h
    · rw [h]
      exact ih f hne ha hd
    · rw [h]
      obtain ⟨b, hb⟩ := ih { f with has_idle_handler := true } hne ha hd
      exact ⟨b, by rw [hb]⟩

/-- The function reload writes none of the three pending containers. -/
theorem reload_pending_frame (newJob : Nat) (monOk : Bool) (f : Folder) :
    (reload newJob monOk f).self.files_to_add = f.files_to_add ∧
    (reload newJob monOk f).self.files_to_update = f.files_to_update ∧
    (reload newJob monOk f).self.files_to_del = f.files_to_del := by
  unfold reload
  cases h : f.dirlist_job <;>
    simp [Step.log, Step.assign, Step.andThen, queryFilesystemInfo, h]

/-! ## Lemmas on flushes, schedules and reachable states -/

/-- Every signal of a flush is emitted between taking the mutex and releasing
it. -/
theorem lockedSignals_processPendingChanges (f : Folder) :
    lockedSignals 0 (processPendingChanges f).trace =
      signalsOf (processPendingChanges f).trace := by
  unfold processPendingChanges
  cases h1 : f.stop_emission <;> cases h2 : f.files_to_del.isEmpty <;>
    cases h3 : f.pending_change_notify <;> cases h4 : f.filesystem_info_pending <;>
    simp [signalsOf, lockedSignals, Step.log, Step.assign, Step.andThen, queryFilesystemInfo,
      h1, h2, h3, h4]

/-- The slot onFileChangeEvents, onDirChanged included, emits no signal while
it holds the mutex. -/
theorem lockedSignals_onFileChangeEvents (gf : FilePath) (evt : GFileMonitorEvent)
    (f : Folder) : lockedSignals 0 (onFileChangeEvents gf evt f).trace = [] := by
  unfold onFileChangeEvents onDirChanged queue_update
  cases evt <;> cases hi : f.has_idle_handler <;>
    by_cases h0 : f.dir_path = gf <;> by_cases h1 : gf ∈ f.files_to_add <;>
    by_cases h2 : gf ∈ f.files_to_update <;> by_cases h3 : gf ∈ f.files_to_del <;>
    by_cases h4 : f.dir_path ∈ f.files_to_update <;>
    simp [lockedSignals, Step.log, Step.assign, Step.andThen, hi, h0, h1, h2, h3, h4]

theorem filesFind_eq_none (n : String) (files : List (String × FileInfo)) :
    filesFind n files = none ↔ n ∉ files.map Prod.fst := by
  induction files with
  | nil => simp [filesFind]
  | cons e rest ih =>
    obtain ⟨k, v⟩ := e
    by_cases hk : k = n
    · simp [filesFind, hk]
    · have hk2 : ¬ n = k := fun h => hk h.symm
      simp [filesFind, hk, hk2, ih]

theorem filesErase_eq_filter (n : String) (files : List (String × FileInfo))
    (hnd : (files.map Prod.fst).Nodup) :
    filesErase n files = files.filter (fun e => decide (e.1 ≠ n)) := by
  induction files with
  | nil => simp [filesErase]
  | cons e rest ih =>
    obtain ⟨k, v⟩ := e
    simp only [List.map_cons, List.nodup_cons] at hnd
    by_cases hk : k = n
    · subst hk
      simp only [filesErase, if_true, ne_eq, not_true_eq_false, decide_False,
        Bool.false_eq_true, not_false_eq_true, List.filter_cons_of_neg]
      symm
      rw [List.filter_eq_self]
      intro a ha
      have : a.1 ≠ k := by
        intro h
        apply hnd.1
        rw [← h]
        exact List.mem_map_of_mem Prod.fst ha
      simp [this]
    · simp [filesErase, hk, ih hnd.2]

theorem filesFind_filter_ne (m n : String) (files : List (String × FileInfo)) :
    filesFind m (files.filter (fun e => decide (e.1 ≠ n))) =
      if m = n then none else filesFind m files := by
  induction files with
  | nil => simp [filesFind]
  | cons e rest ih =>
    obtain ⟨k, v⟩ := e
    by_cases hk : k = n
    · subst hk
      by_cases hm : m = k
      · simp [hm] at ih ⊢
        exact ih
      · have hm2 : ¬ k = m := fun h => hm h.symm
        simp [hm, hm2, filesFind] at ih ⊢
        exact ih
    · by_cases hm : m = n
      · subst hm
        simp [hk, filesFind] at ih ⊢
        exact ih
      · by_cases hkm : k = m
        · simp [hk, hm, hkm, filesFind]
        · simp [hk, hm, hkm, filesFind] at ih ⊢
          exact ih

theorem filterMap_filter_ne (L : List String) (n : String) (g : String → Option FileInfo) :
    (L.filter (fun y => decide (y ≠ n))).filterMap g =
      L.filterMap (fun m => if m = n then none else g m) := by
  induction L with
  | nil => rfl
  | cons x xs ih =>
    by_cases hx : x = n
    · simp [hx] at ih ⊢
      exact ih
    · simp [hx, List.filterMap_cons] at ih ⊢
      cases g x <;> simp [ih]

theorem nodup_keys_filter (p : String × FileInfo → Bool) (files : List (String × FileInfo))
    (hnd : (files.map Prod.fst).Nodup) : ((files.filter p).map Prod.fst).Nodup :=
  List.Nodup.sublist (List.Sublist.map Prod.fst (List.filter_sublist files)) hnd

/-- The loop of the delete step on a map with unique keys. -/
theorem deleteLoop_spec (paths : List FilePath) (files : List (String × FileInfo))
    (acc : List FileInfo) (hnd : (files.map Prod.fst).Nodup) :
    deleteLoop paths files acc =
      (files.filter (fun e => decide (e.1 ∉ paths.map FilePath.baseName)),
       acc ++ (keepFirst (paths.map FilePath.baseName)).filterMap
         (fun n => filesFind n files)) := by
  induction paths generalizing files acc with
  | nil => simp [deleteLoop, keepFirst]
  | cons p rest ih =>
    cases hf : filesFind p.baseName files with
    | none =>
      have hn : p.baseName ∉ files.map Prod.fst := (filesFind_eq_none _ _).1 hf
      simp only [deleteLoop, hf, ih files acc hnd, List.map_cons, keepFirst,
        List.filterMap_cons, filterMap_filter_ne]
      congr 1
      · apply List.filter_congr
        intro e he
        have : e.1 ≠ p.baseName := by
          intro h
          apply hn
          rw [← h]
          exact List.mem_map_of_mem Prod.fst he
        simp [this]
      · congr 1
        apply congrArg (fun g => List.filterMap g _)
        funext m
        by_cases hm : m = p.baseName
        · simp [hm, hf]
        · simp [hm]
    | some fi =>
      have he := filesErase_eq_filter p.baseName files hnd
      simp only [deleteLoop, hf, List.map_cons, keepFirst, List.filterMap_cons,
        filterMap_filter_ne]
      rw [ih (filesErase p.baseName files) (acc ++ [fi])
        (by rw [he]; exact nodup_keys_filter _ files hnd), he]
      congr 1
      · rw [List.filter_filter]
        apply List.filter_congr
        intro e _
        by_cases h1 : e.1 = p.baseName <;> simp [h1]
      · rw [List.append_assoc]
        congr 1
        simp only [List.singleton_append]
        congr 1
        apply congrArg (fun g => List.filterMap g _)
        funext m
        exact filesFind_filter_ne m p.baseName files

theorem filesFind_filter_notMem (m : String) (S : List String)
    (files : List (String × FileInfo)) :
    filesFind m (files.filter (fun e => decide (e.1 ∉ S))) =
      if m ∈ S then none else filesFind m files := by
  induction files with
  | nil => simp [filesFind]
  | cons e rest ih =>
    obtain ⟨k, v⟩ := e
    by_cases hk : k ∈ S
    · by_cases hm : m ∈ S
      · simp [hk, hm] at ih ⊢
        exact ih
      · have hkm : ¬ k = m := fun h => hm (h ▸ hk)
        simp [hk, hm, hkm, filesFind] at ih ⊢
        exact ih
    · by_cases hkm : k = m
      · subst hkm
        simp [hk, filesFind]
      · by_cases hm : m ∈ S
        · simp [hk, hm, hkm, filesFind] at ih ⊢
          exact ih
        · simp [hk, hm, hkm, filesFind] at ih ⊢
          exact ih

/-- The children after a flush that is not suppressed and finds paths queued
for deletion. -/
theorem processPendingChanges_files_del (f : Folder) (hgo : f.stop_emission = false)
    (hq : f.files_to_del ≠ []) :
    (processPendingChanges f).self.files = (deleteLoop f.files_to_del f.files []).1 := by
  have hq2 : f.files_to_del.isEmpty = false := by
    cases h : f.files_to_del with
    | nil => exact absurd h hq
    | cons a l => rfl
  unfold processPendingChanges
  cases h3 : f.pending_change_notify <;> cases h4 : f.filesystem_info_pending <;>
    simp [Step.log, Step.assign, Step.andThen, queryFilesystemInfo, hgo, hq2, h3, h4]

/-- A self-path Changed or AttributeChanged event sets the change flag and
leaves stop_emission alone. -/
theorem onDirChanged_sets_flag (e : GFileMonitorEvent) (f : Folder)
    (he : e = GFileMonitorEvent.CHANGED ∨ e = GFileMonitorEvent.ATTRIBUTE_CHANGED) :
    (onDirChanged e f).self.pending_change_notify = true ∧
    (onDirChanged e f).self.stop_emission = f.stop_emission := by
  rcases he with he | he <;> subst he <;>
    by_cases h : f.dir_path ∈ f.files_to_update <;>
    cases hi : f.has_idle_handler <;>
    simp [onDirChanged, queue_update, Step.log, Step.assign, Step.andThen, h, hi]

theorem folderRun_dirChanged (evts : List GFileMonitorEvent) (f : Folder)
    (hall : ∀ e ∈ evts, e = GFileMonitorEvent.CHANGED ∨ e = GFileMonitorEvent.ATTRIBUTE_CHANGED) :
    (folderRun (evts.map Op.dirChanged) f).stop_emission = f.stop_emission ∧
    (evts ≠ [] → (folderRun (evts.map Op.dirChanged) f).pending_change_notify = true) := by
  induction evts generalizing f with
  | nil => simp [folderRun]
  | cons e es ih =>
    have he := onDirChanged_sets_flag e f (hall e (List.mem_cons_self e es))
    have ih2 := ih (onDirChanged e f).self (fun x hx => hall x (List.mem_cons_of_mem e hx))
    have hrun : folderRun ((e :: es).map Op.dirChanged) f =
        folderRun (es.map Op.dirChanged) (onDirChanged e f).self := by
      simp [folderRun, Op.call]
    rw [hrun]
    refine ⟨by rw [ih2.1, he.2], fun _ => ?_⟩
    cases es with
    | nil => simpa [folderRun] using he.1
    | cons x xs => exact ih2.2 (by simp)

/-- What a flush that is not suppressed does to the change flag. -/
theorem processPendingChanges_flag (f : Folder) (hgo : f.stop_emission = false) :
    (processPendingChanges f).self.pending_change_notify = false ∧
    (processPendingChanges f).self.stop_emission = false := by
  unfold processPendingChanges
  cases h2 : f.files_to_del.isEmpty <;> cases h3 : f.pending_change_notify <;>
    cases h4 : f.filesystem_info_pending <;>
    simp [Step.log, Step.assign, Step.andThen, queryFilesystemInfo, hgo, h2, h3, h4]

/-- The number of changed signals of a flush. -/
theorem count_changed_processPendingChanges (f : Folder) :
    (signalsOf (processPendingChanges f).trace).count Signal.changed =
      if f.stop_emission = false ∧ f.pending_change_notify = true then 1 else 0 := by
  rw [signalsOf_processPendingChanges]
  cases h1 : f.stop_emission <;> cases h2 : f.files_to_del.isEmpty <;>
    cases h3 : f.pending_change_notify <;> cases h4 : f.filesystem_info_pending <;>
    simp [h1, h2, h3, h4, List.count_cons]

/-- A flush clears has_idle_handler and schedules nothing. -/
theorem processPendingChanges_idle (f : Folder) :
    (processPendingChanges f).self.has_idle_handler = false ∧
    singleShots (processPendingChanges f).trace = 0 := by
  unfold processPendingChanges
  cases h1 : f.stop_emission <;> cases h2 : f.files_to_del.isEmpty <;>
    cases h3 : f.pending_change_notify <;> cases h4 : f.filesystem_info_pending <;>
    simp [singleShots, Step.log, Step.assign, Step.andThen, queryFilesystemInfo,
      h1, h2, h3, h4]

/-- The function queue_update sets has_idle_handler and calls singleShot once
if the flag was clear and not at all if it was set. -/
theorem queue_update_spec (f : Folder) :
    (queue_update f).self.has_idle_handler = true ∧
    singleShots (queue_update f).trace = if f.has_idle_handler then 0 else 1 := by
  cases hi : f.has_idle_handler <;> simp [queue_update, singleShots, hi]

/-- Every call other than a flush either leaves has_idle_handler alone and
schedules nothing, or finds it clear, sets it and schedules one callback. -/
theorem call_schedules (op : Op) (f : Folder) (hop : op ≠ Op.flush) :
    ((op.call f).self.has_idle_handler = f.has_idle_handler ∧
      singleShots (op.call f).trace = 0) ∨
    (f.has_idle_handler = false ∧ (op.call f).self.has_idle_handler = true ∧
      singleShots (op.call f).trace = 1) := by
  cases op with
  | flush => exact absurd rfl hop
  | fileChange gf evt =>
    simp only [Op.call]
    unfold onFileChangeEvents onDirChanged queue_update
    cases evt <;> cases hi : f.has_idle_handler <;>
      by_cases h0 : f.dir_path = gf <;> by_cases h1 : gf ∈ f.files_to_add <;>
      by_cases h2 : gf ∈ f.files_to_update <;> by_cases h3 : gf ∈ f.files_to_del <;>
      by_cases h4 : f.dir_path ∈ f.files_to_update <;>
      simp [singleShots, Step.log, Step.assign, Step.andThen, hi, h0, h1, h2, h3, h4]
  | dirChanged evt =>
    simp only [Op.call]
    unfold onDirChanged queue_update
    cases evt <;> cases hi : f.has_idle_handler <;>
      by_cases h4 : f.dir_path ∈ f.files_to_update <;>
      simp [singleShots, Step.log, Step.assign, Step.andThen, hi, h4]
  | reload newJob monOk =>
    left
    simp only [Op.call]
    unfold reload
    cases h : f.dirlist_job <;>
      simp [singleShots, Step.log, Step.assign, Step.andThen, queryFilesystemInfo, h]
  | dirListFinished job =>
    left
    simp only [Op.call]
    unfold onDirListFinished
    split <;> simp [singleShots]
  | blockUpdates => left; simp [Op.call, blockUpdates, singleShots]
  | unblockUpdates => left; simp [Op.call, unblockUpdates, singleShots]

theorem schedStep_balanced (s : Sched) (op : Op) (hs : s.balanced) :
    (schedStep s op).balanced := by
  unfold Sched.balanced at hs ⊢
  by_cases hop : op = Op.flush
  · subst hop
    simp only [schedStep]
    split
    · rename_i hpos
      obtain ⟨h1, h2⟩ := processPendingChanges_idle s.folder
      cases hi : s.folder.has_idle_handler
      · simp [hi] at hs
        omega
      · simp [hi] at hs
        simp [h1, h2, hs]
    · exact hs
  · have hstep : schedStep s op =
        { folder := (op.call s.folder).self,
          pending := s.pending + singleShots (op.call s.folder).trace } := by
      cases op <;> first | rfl | exact absurd rfl hop
    rw [hstep]
    rcases call_schedules op s.folder hop with ⟨h1, h2⟩ | ⟨h0, h1, h2⟩
    · simp [h1, h2, hs]
    · simp [h0] at hs
      simp [h1, h2, hs]

theorem schedRun_balanced_from (ops : List Op) (s : Sched) (hs : s.balanced) :
    (ops.foldl schedStep s).balanced := by
  induction ops generalizing s with
  | nil => exact hs
  | cons op rest ih => exact ih _ (schedStep_balanced s op hs)

theorem queueUpdates_spec (n : Nat) (s : Sched) (hs : s.balanced) (hn : 0 < n) :
    (queueUpdates n s).pending = 1 ∧ (queueUpdates n s).folder.has_idle_handler = true := by
  induction n generalizing s with
  | zero => omega
  | succ m ih =>
    obtain ⟨h1, h2⟩ := queue_update_spec s.folder
    have hb : Sched.balanced
        { folder := (queue_update s.folder).self
          pending := s.pending + singleShots (queue_update s.folder).trace } := by
      unfold Sched.balanced at hs ⊢
      cases hi : s.folder.has_idle_handler <;> simp [hi] at hs h2 <;> simp [h1, h2, hs]
    cases m with
    | zero =>
      unfold Sched.balanced at hb
      simp only [queueUpdates]
      exact ⟨by simpa [h1] using hb, h1⟩
    | succ k => exact ih _ hb (by omega)

theorem mem_push_of_mem {a : FilePath} {l : List FilePath} (h : a ∈ l) (x : FilePath) :
    x ∈ l ++ [a] ↔ x ∈ l := by
  simp only [List.mem_append, List.mem_singleton]
  constructor
  · rintro (hx | hx)
    · exact hx
    · exact hx ▸ h
  · exact Or.inl

/-- A flush writes none of the three pending containers. -/
theorem processPendingChanges_pending_frame (f : Folder) :
    (processPendingChanges f).self.files_to_add = f.files_to_add ∧
    (processPendingChanges f).self.files_to_update = f.files_to_update ∧
    (processPendingChanges f).self.files_to_del = f.files_to_del := by
  unfold processPendingChanges
  cases h1 : f.stop_emission <;> cases h2 : f.files_to_del.isEmpty <;>
    cases h3 : f.pending_change_notify <;> cases h4 : f.filesystem_info_pending <;>
    simp [Step.log, Step.assign, Step.andThen, queryFilesystemInfo, h1, h2, h3, h4]

/-- Every call leaves the members of each pending container as they were: a
path is pushed to a container only when it is in that container already. -/
theorem call_pending_mem (op : Op) (f : Folder) (x : FilePath) :
    (x ∈ (op.call f).self.files_to_add ↔ x ∈ f.files_to_add) ∧
    (x ∈ (op.call f).self.files_to_update ↔ x ∈ f.files_to_update) ∧
    (x ∈ (op.call f).self.files_to_del ↔ x ∈ f.files_to_del) := by
  cases op with
  | flush =>
    obtain ⟨h1, h2, h3⟩ := processPendingChanges_pending_frame f
    simp [Op.call, h1, h2, h3]
  | fileChange gf evt =>
    simp only [Op.call]
    unfold onFileChangeEvents onDirChanged queue_update
    cases evt <;> cases hi : f.has_idle_handler <;>
      by_cases h0 : f.dir_path = gf <;> by_cases h1 : gf ∈ f.files_to_add <;>
      by_cases h2 : gf ∈ f.files_to_update <;> by_cases h3 : gf ∈ f.files_to_del <;>
      by_cases h4 : f.dir_path ∈ f.files_to_update <;>
      simp [Step.log, Step.assign, Step.andThen, hi, h0, h1, h2, h3, h4, mem_push_of_mem] <;>
      (intro hx; rw [hx]; assumption)
  | dirChanged evt =>
    simp only [Op.call]
    unfold onDirChanged queue_update
    cases evt <;> cases hi : f.has_idle_handler <;>
      by_cases h4 : f.dir_path ∈ f.files_to_update <;>
      simp [Step.log, Step.assign, Step.andThen, hi, h4, mem_push_of_mem] <;>
      (intro hx; rw [hx]; assumption)
  | reload newJob monOk =>
    obtain ⟨h1, h2, h3⟩ := reload_pending_frame newJob monOk f
    simp [Op.call, h1, h2, h3]
  | dirListFinished job =>
    simp only [Op.call]
    unfold onDirListFinished
    split <;> simp
  | blockUpdates => simp [Op.call, blockUpdates]
  | unblockUpdates => simp [Op.call, unblockUpdates]

theorem folderRun_pending_mem (ops : List Op) (f : Folder) (x : FilePath) :
    (x ∈ (folderRun ops f).files_to_add ↔ x ∈ f.files_to_add) ∧
    (x ∈ (folderRun ops f).files_to_update ↔ x ∈ f.files_to_update) ∧
    (x ∈ (folderRun ops f).files_to_del ↔ x ∈ f.files_to_del) := by
  induction ops generalizing f with
  | nil => simp [folderRun]
  | cons op rest ih =>
    have hrun : folderRun (op :: rest) f = folderRun rest (op.call f).self := by
      simp [folderRun]
    obtain ⟨a1, a2, a3⟩ := ih (op.call f).self
    obtain ⟨b1, b2, b3⟩ := call_pending_mem op f x
    rw [hrun]
    exact ⟨a1.trans b1, a2.trans b2, a3.trans b3⟩

/-- In every state that a freshly constructed folder can reach, the three
pending containers are empty. -/
theorem folderRun_pending_empty (path : FilePath) (ops : List Op) :
    (folderRun ops (Folder.create path)).files_to_add = [] ∧
    (folderRun ops (Folder.create path)).files_to_update = [] ∧
    (folderRun ops (Folder.create path)).files_to_del = [] := by
  refine ⟨?_, ?_, ?_⟩ <;> rw [List.eq_nil_iff_forall_not_mem] <;> intro x hx
  · exact absurd ((folderRun_pending_mem ops (Folder.create path) x).1.1 hx) (by simp [Folder.create])
  · exact absurd ((folderRun_pending_mem ops (Folder.create path) x).2.1.1 hx) (by simp [Folder.create])
  · exact absurd ((folderRun_pending_mem ops (Folder.create path) x).2.2.1 hx) (by simp [Folder.create])

/-- What a flush does on a folder whose stop_emission is set: it emits no
signal and changes no data member other than has_idle_handler, which it
clears before the flag is tested. -/
theorem processPendingChanges_suppressed (f : Folder) (hstop : f.stop_emission = true) :
    (processPendingChanges f).self = { f with has_idle_handler := false } ∧
    signalsOf (processPendingChanges f).trace = [] := by
  unfold processPendingChanges
  simp [hstop, Step.log, signalsOf]

/-- C1. For every registry and path: when the entry of the path refers to a
folder that is alive, fromPath returns that folder and leaves the map and the
number of folders as they were; when there is no such entry, fromPath returns
a folder that did not exist before, whose path is the given one, registers it
under the path without touching other entries, and an immediately following
fromPath of the same path returns the same folder and leaves the map alone. -/
theorem fromPath_get_or_create (r : Registry) (p : FilePath) :
    (∀ f, r.cache_ p = some f → r.alive f = true →
      (Folder.fromPath p r).1 = f ∧
      (Folder.fromPath p r).2.cache_ = r.cache_ ∧
      (Folder.fromPath p r).2.heap.length = r.heap.length) ∧
    ((∀ f, r.cache_ p = some f → r.alive f = false) →
      r.heap[(Folder.fromPath p r).1]? = none ∧
      (Folder.fromPath p r).2.heap[(Folder.fromPath p r).1]? =
        some { dir_path := p, use_count := 1, destructed := false } ∧
      (Folder.fromPath p r).2.cache_ p = some (Folder.fromPath p r).1 ∧
      (∀ q, q ≠ p → (Folder.fromPath p r).2.cache_ q = r.cache_ q) ∧
      (Folder.fromPath p (Folder.fromPath p r).2).1 = (Folder.fromPath p r).1 ∧
      (Folder.fromPath p (Folder.fromPath p r).2).2.cache_ =
        (Folder.fromPath p r).2.cache_) := by
  constructor
  · intro f hf ha
    simp [Folder.fromPath, hf, ha, length_modifyCell]
  · intro hdead
    cases hc : r.cache_ p with
    | none =>
      have e : Folder.fromPath p r = makeShared p r := by simp [Folder.fromPath, hc]
      rw [e]
      exact makeShared_spec p r hc
    | some f =>
      have ha := hdead f hc
      have e : Folder.fromPath p r =
          makeShared p { r with cache_ := mapErase r.cache_ p } := by
        simp [Folder.fromPath, hc, ha]
      rw [e]
      have hn : ({ r with cache_ := mapErase r.cache_ p } : Registry).cache_ p = none := by
        simp [mapErase]
      obtain ⟨h1, h2, h3, h4, h5, h6⟩ :=
        makeShared_spec p { r with cache_ := mapErase r.cache_ p } hn
      refine ⟨h1, h2, h3, ?_, h5, h6⟩
      intro q hq
      rw [h4 q hq]
      simp [mapErase, hq]

/-- C1 at two inputs: a registry that holds a live folder for home/u, where
fromPath returns that folder, and the empty registry, where the folder that
fromPath constructs is returned again by the next call. -/
theorem fromPath_get_or_create_witness :
    ((Folder.fromPath homeUPath regOne).1 = 0 ∧
      (Folder.fromPath homeUPath regOne).2.cache_ = regOne.cache_ ∧
      (Folder.fromPath homeUPath regOne).2.heap.length = regOne.heap.length) ∧
    (Folder.fromPath homeUPath (Folder.fromPath homeUPath Registry.empty).2).1 =
      (Folder.fromPath homeUPath Registry.empty).1 :=
  ⟨(fromPath_get_or_create regOne homeUPath).1 0 (by rfl) (by rfl),
   ((fromPath_get_or_create Registry.empty homeUPath).2
      (by intro f hf; cases hf)).2.2.2.2.1⟩

/-- C2, evaluated on the code. After the stale schedule, the destructor body of
the first folder and one more fromPath, the second and the third folder are
both alive for the path home/u; the second call of fromPath returned folder 1,
which is still alive when the third call returns folder 2. -/
theorem two_live_folders_for_one_path :
    liveAt (regRun (staleSchedule ++ [RegStep.destroy 0, RegStep.fromPath homeUPath]))
      homeUPath = [1, 2] ∧
    (Folder.fromPath homeUPath
      (regRun [RegStep.fromPath homeUPath, RegStep.release 0])).1 = 1 ∧
    (regRun (staleSchedule ++ [RegStep.destroy 0])).alive 1 = true ∧
    (Folder.fromPath homeUPath (regRun (staleSchedule ++ [RegStep.destroy 0]))).1 = 2 := by
  decide

/-- C3, evaluated on the code. After the stale schedule the entry of home/u
refers to the second folder, which is alive, and not to the first one, which
is expired; the destructor of the first folder removes that entry all the
same. -/
theorem destructor_evicts_newer_folder :
    (regRun staleSchedule).cache_ homeUPath = some 1 ∧
    (regRun staleSchedule).alive 1 = true ∧
    (regRun staleSchedule).alive 0 = false ∧
    (Folder.destructor 0 (regRun staleSchedule)).cache_ homeUPath = none := by
  decide

/-- C4, evaluated on the code. The folder home/u tracks listing job 7 after
reload; the job completes, not cancelled, reporting a.txt and b.txt. The slot
emits finishLoading and nothing else, the flush that follows emits no signal,
the children are still empty, and isLoaded yields no value. -/
theorem listing_result_is_not_merged :
    (reload 7 true homeU).self.dirlist_job = some listingAB.id ∧
    (reload 7 true homeU).self.files = [] ∧
    (onDirListFinished listingAB (reload 7 true homeU).self).trace =
      [Event.emit Signal.finishLoading] ∧
    signalsOf (processPendingChanges
      (onDirListFinished listingAB (reload 7 true homeU).self).self).trace = [] ∧
    (processPendingChanges
      (onDirListFinished listingAB (reload 7 true homeU).self).self).self.files = [] ∧
    isLoaded (processPendingChanges
      (onDirListFinished listingAB (reload 7 true homeU).self).self).self = none := by
  decide

/-- C5, evaluated on the code. On the freshly constructed folder home/u, the
events Created and Changed for a.txt queue nothing for addition, and the flush
that follows emits no signal at all, so no filesAdded entry for a.txt. -/
theorem created_changed_adds_nothing :
    (deliver aTxt [GFileMonitorEvent.CREATED, GFileMonitorEvent.CHANGED]
      homeU).self.files_to_add = [] ∧
    signalsOf (processPendingChanges
      (deliver aTxt [GFileMonitorEvent.CREATED, GFileMonitorEvent.CHANGED]
        homeU).self).trace = [] := by
  decide

/-- C6. For every folder whose three pending containers are empty and every
child path A whose base name is not a key of the children: after Created,
Changed and Deleted are delivered for A in that order, the flush emits no
filesAdded, filesChanged or filesRemoved signal at all (hence none with a
batch containing A), and the children still have no entry for the base name
of A. -/
theorem created_changed_deleted_cancel (f : Folder) (A : FilePath)
    (hadd : f.files_to_add = []) (_hupd : f.files_to_update = [])
    (hdel : f.files_to_del = []) (hchild : f.dir_path ≠ A)
    (hnew : filesFind A.baseName f.files = none) :
    (∀ sig ∈ signalsOf (processPendingChanges
        (deliver A [GFileMonitorEvent.CREATED, GFileMonitorEvent.CHANGED,
          GFileMonitorEvent.DELETED] f).self).trace,
      ∀ batch, sig ≠ Signal.filesAdded batch ∧ sig ≠ Signal.filesChanged batch ∧
        sig ≠ Signal.filesRemoved batch) ∧
    filesFind A.baseName (processPendingChanges
        (deliver A [GFileMonitorEvent.CREATED, GFileMonitorEvent.CHANGED,
          GFileMonitorEvent.DELETED] f).self).self.files = none := by
  obtain ⟨b, hb⟩ := deliver_child_empty A
    [GFileMonitorEvent.CREATED, GFileMonitorEvent.CHANGED, GFileMonitorEvent.DELETED]
    f hchild hadd hdel
  rw [hb]
  constructor
  · intro sig hsig batch
    rw [signalsOf_processPendingChanges] at hsig
    simp only [hdel, List.isEmpty_nil] at hsig
    cases h1 : f.stop_emission <;> cases h3 : f.pending_change_notify <;>
      cases h4 : f.filesystem_info_pending <;> simp [h1, h3, h4] at hsig <;>
      (try rcases hsig with h | h) <;> simp_all
  · rw [processPendingChanges_files { f with has_idle_handler := b } hdel]
    exact hnew

/-- C6 at the freshly constructed folder home/u and its child a.txt. -/
theorem created_changed_deleted_cancel_witness :
    (∀ sig ∈ signalsOf (processPendingChanges
        (deliver aTxt [GFileMonitorEvent.CREATED, GFileMonitorEvent.CHANGED,
          GFileMonitorEvent.DELETED] homeU).self).trace,
      ∀ batch, sig ≠ Signal.filesAdded batch ∧ sig ≠ Signal.filesChanged batch ∧
        sig ≠ Signal.filesRemoved batch) ∧
    filesFind aTxt.baseName (processPendingChanges
        (deliver aTxt [GFileMonitorEvent.CREATED, GFileMonitorEvent.CHANGED,
          GFileMonitorEvent.DELETED] homeU).self).self.files = none :=
  created_changed_deleted_cancel homeU aTxt rfl rfl rfl (by decide) rfl

/-- C7, evaluated on the code. A self-path Changed event on the fresh folder
home/u sets the change flag; blockUpdates then leaves stop_emission false and
the flush that follows emits the signal changed. On a folder with emission
stopped and a.txt queued for deletion, unblockUpdates changes no data member
and schedules nothing. -/
theorem blockUpdates_does_not_block :
    (blockUpdates (onFileChangeEvents homeUPath GFileMonitorEvent.CHANGED
      homeU).self).self.stop_emission = false ∧
    signalsOf (processPendingChanges (blockUpdates
      (onFileChangeEvents homeUPath GFileMonitorEvent.CHANGED homeU).self).self).trace =
      [Signal.changed] ∧
    unblockUpdates homeUStopped = { self := homeUStopped, trace := [] } ∧
    homeUStopped.stop_emission = true ∧ homeUStopped.files_to_del = [aTxt] := by
  decide

/-- C8. For every folder, the signals of one call of processPendingChanges are
in the order of the specification: no signal is emitted after a signal of a
later class, where the classes are filesRemoved, then filesAdded and
filesChanged, then contentChanged, then changed and fileSystemChanged; and
every signal emitted belongs to one of these classes. -/
theorem flush_order (f : Folder) :
    (signalsOf (processPendingChanges f).trace).Pairwise
      (fun a b => flushRank a ≤ flushRank b) ∧
    ∀ sig ∈ signalsOf (processPendingChanges f).trace, flushRank sig ≤ 3 := by
  rw [signalsOf_processPendingChanges]
  cases f.stop_emission <;> cases f.files_to_del.isEmpty <;>
    cases f.pending_change_notify <;> cases f.filesystem_info_pending <;>
    simp [flushRank]

/-- C9. For every folder and every finished job: when the job is cancelled or
is not the tracked dirlist_job, onDirListFinished emits nothing and leaves
every data member as it was; every signal that onDirListFinished emits is
finishLoading and is emitted for a job that is not cancelled and is the
tracked one; and for such a job finishLoading is emitted, once, with no data
member changed. -/
theorem onDirListFinished_discards_stale (f : Folder) (job : DirListJob) :
    ((job.isCancelled = true ∨ f.dirlist_job ≠ some job.id) →
      onDirListFinished job f = { self := f, trace := [] }) ∧
    (∀ sig ∈ signalsOf (onDirListFinished job f).trace,
      sig = Signal.finishLoading ∧ job.isCancelled = false ∧
        f.dirlist_job = some job.id) ∧
    ((job.isCancelled = false ∧ f.dirlist_job = some job.id) →
      onDirListFinished job f =
        { self := f, trace := [Event.emit Signal.finishLoading] }) := by
  refine ⟨?_, ?_, ?_⟩
  · intro h
    rcases h with h | h <;> simp [onDirListFinished, h]
  · intro sig hsig
    unfold onDirListFinished at hsig
    split at hsig
    · simp [signalsOf] at hsig
    · rename_i hcur
      simp [signalsOf] at hsig
      simp at hcur
      exact ⟨hsig, hcur.1, hcur.2⟩
  · intro h
    simp [onDirListFinished, h.1, h.2]

/-- C9 at three inputs: the tracked job cancelled, a job that is not the
tracked one, and the tracked job not cancelled. -/
theorem onDirListFinished_discards_stale_witness :
    onDirListFinished { listingAB with isCancelled := true } (reload 7 true homeU).self =
      { self := (reload 7 true homeU).self, trace := [] } ∧
    onDirListFinished listingAB (reload 8 true homeU).self =
      { self := (reload 8 true homeU).self, trace := [] } ∧
    onDirListFinished listingAB (reload 7 true homeU).self =
      { self := (reload 7 true homeU).self,
        trace := [Event.emit Signal.finishLoading] } :=
  ⟨(onDirListFinished_discards_stale (reload 7 true homeU).self
      { listingAB with isCancelled := true }).1 (Or.inl rfl),
   (onDirListFinished_discards_stale (reload 8 true homeU).self listingAB).1
      (Or.inr (by decide)),
   (onDirListFinished_discards_stale (reload 7 true homeU).self listingAB).2.2
      ⟨rfl, rfl⟩⟩

/-- C13, evaluated on the code. After a self-path Changed event on the fresh
folder home/u, the flush takes the mutex, emits changed, and only then
releases the mutex; on the folder with a.txt queued for deletion, filesRemoved
and contentChanged are emitted while the mutex is held as well. -/
theorem flush_emits_under_lock :
    (processPendingChanges (onFileChangeEvents homeUPath GFileMonitorEvent.CHANGED
      homeU).self).trace = [Event.lock, Event.emit Signal.changed, Event.unlock] ∧
    lockedSignals 0 (processPendingChanges (onFileChangeEvents homeUPath
      GFileMonitorEvent.CHANGED homeU).self).trace = [Signal.changed] ∧
    lockedSignals 0 (processPendingChanges homeUDelChild).trace =
      [Signal.filesRemoved [{ name := "a.txt", info := 1 }], Signal.contentChanged] := by
  decide

/-- C14. For every folder whose flush is not suppressed, whose files_to_del is
not empty and whose children map has unique keys: after processPendingChanges
the children are the old children without the entries whose key is the base
name of a queued path, every other entry unchanged and in place; looking up a
name gives nothing for those keys and the old record otherwise; and the flush
emits filesRemoved once, first, with the records stored under the base names
of the queued paths, each once, in the order in which the names first occur in
files_to_del. -/
theorem flush_delete_step (f : Folder) (hgo : f.stop_emission = false)
    (hq : f.files_to_del ≠ []) (hmap : (f.files.map Prod.fst).Nodup) :
    (processPendingChanges f).self.files =
      f.files.filter (fun e => decide (e.1 ∉ f.files_to_del.map FilePath.baseName)) ∧
    (∀ name, filesFind name (processPendingChanges f).self.files =
      if name ∈ f.files_to_del.map FilePath.baseName then none
      else filesFind name f.files) ∧
    (∃ rest, signalsOf (processPendingChanges f).trace =
        Signal.filesRemoved ((keepFirst (f.files_to_del.map FilePath.baseName)).filterMap
          (fun n => filesFind n f.files)) :: rest ∧
      ∀ batch, Signal.filesRemoved batch ∉ rest) := by
  have hfiles := processPendingChanges_files_del f hgo hq
  have hspec := deleteLoop_spec f.files_to_del f.files [] hmap
  rw [hspec] at hfiles
  refine ⟨hfiles, ?_, ?_⟩
  · intro name
    rw [hfiles]
    exact filesFind_filter_notMem name _ f.files
  · rw [signalsOf_processPendingChanges, hspec]
    have hq2 : f.files_to_del.isEmpty = false := by
      cases h : f.files_to_del with
      | nil => exact absurd h hq
      | cons a l => rfl
    cases h3 : f.pending_change_notify <;> cases h4 : f.filesystem_info_pending <;>
      simp [hgo, hq2, h3, h4]

/-- C14 at the folder home/u with children a.txt and b.txt, a.txt queued twice
and c.txt once: b.txt stays and the batch is the record of a.txt, once. -/
theorem flush_delete_step_witness :
    (processPendingChanges homeUTwoChildren).self.files =
      [("b.txt", { name := "b.txt", info := 2 })] ∧
    signalsOf (processPendingChanges homeUTwoChildren).trace =
      [Signal.filesRemoved [{ name := "a.txt", info := 1 }], Signal.contentChanged] ∧
    (processPendingChanges homeUTwoChildren).self.files =
      homeUTwoChildren.files.filter
        (fun e => decide (e.1 ∉ homeUTwoChildren.files_to_del.map FilePath.baseName)) :=
  ⟨by decide, by decide,
   (flush_delete_step homeUTwoChildren rfl (by decide) (by decide)).1⟩

/-- C16. For every folder whose flush is not suppressed and every non-empty
sequence of self-path Changed and AttributeChanged events handled by
onDirChanged: the change flag is set afterwards, the next
processPendingChanges emits changed exactly once and clears the flag, and a
further processPendingChanges emits no changed; and for every folder whose
flag is clear, a flush emits no changed. -/
theorem folder_changed_coalesced (f : Folder) (evts : List GFileMonitorEvent)
    (hne : evts ≠ [])
    (hall : ∀ e ∈ evts, e = GFileMonitorEvent.CHANGED ∨ e = GFileMonitorEvent.ATTRIBUTE_CHANGED)
    (hgo : f.stop_emission = false) :
    (folderRun (evts.map Op.dirChanged) f).pending_change_notify = true ∧
    (signalsOf (processPendingChanges
      (folderRun (evts.map Op.dirChanged) f)).trace).count Signal.changed = 1 ∧
    (processPendingChanges
      (folderRun (evts.map Op.dirChanged) f)).self.pending_change_notify = false ∧
    (signalsOf (processPendingChanges (processPendingChanges
      (folderRun (evts.map Op.dirChanged) f)).self).trace).count Signal.changed = 0 ∧
    (∀ g : Folder, g.pending_change_notify = false →
      (signalsOf (processPendingChanges g).trace).count Signal.changed = 0) := by
  obtain ⟨hstop, hflag⟩ := folderRun_dirChanged evts f hall
  have hflag := hflag hne
  rw [hgo] at hstop
  obtain ⟨h1, h2⟩ := processPendingChanges_flag _ hstop
  refine ⟨hflag, ?_, h1, ?_, ?_⟩
  · rw [count_changed_processPendingChanges]
    simp [hstop, hflag]
  · rw [count_changed_processPendingChanges]
    simp [h1]
  · intro g hg
    rw [count_changed_processPendingChanges]
    simp [hg]

/-- C16 at the fresh folder home/u and the events Changed, AttributeChanged,
Changed. -/
theorem folder_changed_coalesced_witness :
    (folderRun ([GFileMonitorEvent.CHANGED, GFileMonitorEvent.ATTRIBUTE_CHANGED,
      GFileMonitorEvent.CHANGED].map Op.dirChanged) homeU).pending_change_notify = true ∧
    (signalsOf (processPendingChanges
      (folderRun ([GFileMonitorEvent.CHANGED, GFileMonitorEvent.ATTRIBUTE_CHANGED,
        GFileMonitorEvent.CHANGED].map Op.dirChanged) homeU)).trace).count Signal.changed = 1 :=
  ⟨(folder_changed_coalesced homeU [GFileMonitorEvent.CHANGED,
      GFileMonitorEvent.ATTRIBUTE_CHANGED, GFileMonitorEvent.CHANGED]
      (by decide) (by decide) rfl).1,
   (folder_changed_coalesced homeU [GFileMonitorEvent.CHANGED,
      GFileMonitorEvent.ATTRIBUTE_CHANGED, GFileMonitorEvent.CHANGED]
      (by decide) (by decide) rfl).2.1⟩

/-- C17. For every folder, queue_update leaves has_idle_handler set and calls
singleShot once if the flag was clear and not at all if it was set; from every
state in which the number of queued callbacks is one exactly when
has_idle_handler is set, any positive number of consecutive calls of
queue_update leaves exactly one callback queued; and in every state that a
freshly constructed folder reaches on its event loop, the number of queued
callbacks is one if has_idle_handler is set and zero otherwise. -/
theorem flush_scheduling_debounced :
    (∀ f : Folder, (queue_update f).self.has_idle_handler = true ∧
      singleShots (queue_update f).trace = if f.has_idle_handler then 0 else 1) ∧
    (∀ (n : Nat) (s : Sched), s.pending = (if s.folder.has_idle_handler then 1 else 0) →
      0 < n → (queueUpdates n s).pending = 1 ∧
        (queueUpdates n s).folder.has_idle_handler = true) ∧
    (∀ (path : FilePath) (ops : List Op),
      (schedRun path ops).pending =
        if (schedRun path ops).folder.has_idle_handler then 1 else 0) := by
  refine ⟨queue_update_spec, fun n s hs hn => queueUpdates_spec n s hs hn, ?_⟩
  intro path ops
  exact schedRun_balanced_from ops { folder := Folder.create path, pending := 0 } rfl

/-- C17 at the fresh folder home/u and three calls of queue_update. -/
theorem flush_scheduling_debounced_witness :
    (queueUpdates 3 { folder := homeU, pending := 0 }).pending = 1 ∧
    (queueUpdates 3 { folder := homeU, pending := 0 }).folder.has_idle_handler = true :=
  flush_scheduling_debounced.2.1 3 { folder := homeU, pending := 0 } rfl (by decide)

/-- C18. In every state that a freshly constructed folder reaches by any
sequence of onFileChangeEvents, onDirChanged, processPendingChanges, reload,
onDirListFinished, blockUpdates and unblockUpdates, no path is in more than
one of files_to_add, files_to_update and files_to_del; and each of these calls
keeps the three containers disjoint from any folder in which they are. -/
theorem pending_sets_disjoint :
    (∀ (path : FilePath) (ops : List Op),
      pendingDisjoint (folderRun ops (Folder.create path))) ∧
    (∀ (f : Folder) (op : Op), pendingDisjoint f → pendingDisjoint (op.call f).self) := by
  constructor
  · intro path ops x
    obtain ⟨h1, h2, h3⟩ := folderRun_pending_mem ops (Folder.create path) x
    have e1 : x ∉ (folderRun ops (Folder.create path)).files_to_add := by
      intro hx
      exact absurd (h1.1 hx) (by simp [Folder.create])
    have e2 : x ∉ (folderRun ops (Folder.create path)).files_to_update := by
      intro hx
      exact absurd (h2.1 hx) (by simp [Folder.create])
    exact ⟨fun h => e1 h.1, fun h => e1 h.1, fun h => e2 h.1⟩
  · intro f op hdis x
    obtain ⟨h1, h2, h3⟩ := call_pending_mem op f x
    obtain ⟨d1, d2, d3⟩ := hdis x
    rw [h1, h2, h3]
    exact ⟨d1, d2, d3⟩

/-- C18 at the folder home/u with a.txt queued for deletion and a Deleted
event for a.txt. -/
theorem pending_sets_disjoint_witness :
    pendingDisjoint (Op.call (Op.fileChange aTxt GFileMonitorEvent.DELETED) homeUDel).self :=
  pending_sets_disjoint.2 homeUDel (Op.fileChange aTxt GFileMonitorEvent.DELETED)
    (by intro x; simp [homeUDel, homeU, Folder.create])

/-- C19. In every state that a freshly constructed folder reaches by any
sequence of child-path events, self-path events, flushes, reloads and the
other calls, files_to_add, files_to_update and files_to_del are empty; so a
flush in such a state emits no filesRemoved and leaves the children as they
were. -/
theorem pending_sets_always_empty (path : FilePath) (ops : List Op) :
    (folderRun ops (Folder.create path)).files_to_add = [] ∧
    (folderRun ops (Folder.create path)).files_to_update = [] ∧
    (folderRun ops (Folder.create path)).files_to_del = [] ∧
    (∀ batch, Signal.filesRemoved batch ∉
      signalsOf (processPendingChanges (folderRun ops (Folder.create path))).trace) ∧
    (processPendingChanges (folderRun ops (Folder.create path))).self.files =
      (folderRun ops (Folder.create path)).files := by
  obtain ⟨h1, h2, h3⟩ := folderRun_pending_empty path ops
  refine ⟨h1, h2, h3, ?_, processPendingChanges_files _ h3⟩
  intro batch
  rw [signalsOf_processPendingChanges, h3]
  cases (folderRun ops (Folder.create path)).stop_emission <;>
    cases (folderRun ops (Folder.create path)).pending_change_notify <;>
    cases (folderRun ops (Folder.create path)).filesystem_info_pending <;> simp

end Fm2
